import Mathlib

/-!
Shallow embedding of the gondor-rdbms storage layer (src/storage/page.rs and
src/storage/buffer_pool.rs) and proofs about its specification.

Modelling conventions:
* A Rust `u8` byte is a `Nat`; reads through `rd16`/`rd32` reduce each byte
  mod 256, as the byte array type guarantees in Rust.
* Rust `u16` arithmetic is modelled with explicit wrap-around mod 2^16
  (`wadd`, `wsub`, release-mode semantics, which is also the behaviour the
  code's own comments describe for the signed free-space delta).
* A mutating method on `Page` becomes a function `Page -> args ->
  Except PageError result × Page`, returning the possibly-mutated state
  together with the `Result` value, since the Rust methods mutate `self`
  in place and may have already written bytes when they return an error.
* Slices into the fixed 4096-byte buffer become `take`/`drop` on a
  `List Nat`; `writeBytes` is `copy_from_slice` at an offset.
-/

set_option maxRecDepth 100000

namespace Gondor

inductive PageError where
  | TupleNotFound
  | InvalidSlot
  | NotEnoughSpace
deriving DecidableEq, Repr

inductive BufferPoolError where
  | PageNotFound
  | IoError
deriving DecidableEq, Repr

deriving instance DecidableEq for Except

def HEADER_SIZE : Nat := 16

def PAGE_SIZE : Nat := 4096

/-- 2^16, the modulus of Rust `u16` arithmetic. -/
def U16 : Nat := 65536

/-- Wrapping `u16` addition. -/
def wadd (a b : Nat) : Nat := (a + b) % U16

/-- Wrapping `u16` subtraction (operands are first reduced mod 2^16). -/
def wsub (a b : Nat) : Nat := (a % U16 + (U16 - b % U16)) % U16

/-- Low byte of a 16-bit value, `(x & 0xFF) as u8`. -/
def lo (x : Nat) : Nat := x % 256

/-- High byte of a 16-bit value, `((x >> 8) & 0xFF) as u8`. -/
def hi (x : Nat) : Nat := x / 256 % 256

/-- `u16::from_le_bytes` of the two bytes at position `i`. -/
def rd16 (c : List Nat) (i : Nat) : Nat :=
  c.getD i 0 % 256 + 256 * (c.getD (i + 1) 0 % 256)

/-- `u32::from_le_bytes` of the four bytes at position `i`. -/
def rd32 (c : List Nat) (i : Nat) : Nat :=
  c.getD i 0 % 256 + 256 * (c.getD (i + 1) 0 % 256) +
    65536 * (c.getD (i + 2) 0 % 256) + 16777216 * (c.getD (i + 3) 0 % 256)

/-- `copy_from_slice`: overwrite the bytes of `c` starting at `o` with `bs`. -/
def writeBytes (c : List Nat) (o : Nat) (bs : List Nat) : List Nat :=
  c.take o ++ bs ++ c.drop (o + bs.length)

structure PageHeader where
  page_id : Nat
  free_space_total : Nat
  offset_begin_free_space : Nat
  offset_end_free_space : Nat
deriving DecidableEq, Repr

def PageHeader.new (page_id : Nat) : PageHeader :=
  { page_id := page_id
    free_space_total := PAGE_SIZE - HEADER_SIZE
    offset_begin_free_space := HEADER_SIZE
    offset_end_free_space := PAGE_SIZE }

structure Page where
  contents : List Nat
deriving DecidableEq, Repr

/-- `Page::new`: an all-zero 4096-byte buffer with the fresh header
serialized little-endian into its first 10 bytes. -/
def Page.new (page_id : Nat) : Page :=
  { contents :=
      [page_id % 256, page_id / 256 % 256, page_id / 65536 % 256, page_id / 16777216 % 256,
       lo (PAGE_SIZE - HEADER_SIZE), hi (PAGE_SIZE - HEADER_SIZE),
       lo HEADER_SIZE, hi HEADER_SIZE,
       lo PAGE_SIZE, hi PAGE_SIZE] ++ List.replicate (PAGE_SIZE - 10) 0 }

/-- `Page::get_header`. -/
def Page.get_header (p : Page) : PageHeader :=
  { page_id := rd32 p.contents 0
    free_space_total := rd16 p.contents 4
    offset_begin_free_space := rd16 p.contents 6
    offset_end_free_space := rd16 p.contents 8 }

/-- Byte offset of the slot entry for `slot_id`:
`HEADER_SIZE as u16 + slot_id * 2` in wrapping `u16` arithmetic. -/
def slotOffset (slot_id : Nat) : Nat := wadd HEADER_SIZE ((slot_id % U16) * 2 % U16)

/-- `Page::get_tuple_offset_and_length`. -/
def Page.get_tuple_offset_and_length (p : Page) (slot_id : Nat) :
    Except PageError (Nat × Nat) :=
  let so := slotOffset slot_id
  if wadd so 4 > PAGE_SIZE then .error .InvalidSlot
  else .ok (rd16 p.contents so, rd16 p.contents (so + 2))

/-- `Page::get_data`. -/
def Page.get_data (p : Page) (slot_id : Nat) : Except PageError (List Nat) :=
  let header := p.get_header
  match p.get_tuple_offset_and_length slot_id with
  | .error e => .error e
  | .ok (o, l) =>
    if wadd o l > PAGE_SIZE then .error .TupleNotFound
    else if o < header.offset_begin_free_space then .error .TupleNotFound
    else .ok ((p.contents.drop o).take l)

/-- `Page::update_header` (always returns `Ok` in the source). -/
def Page.update_header (p : Page) (fst begin_ end_ : Nat) : Page :=
  { contents := writeBytes p.contents 4 [lo fst, hi fst, lo begin_, hi begin_, lo end_, hi end_] }

/-- `Page::update_slot_data_only`. -/
def Page.update_slot_data_only (p : Page) (slot_id tuple_offset_begin tuple_length : Nat) :
    Except PageError Unit × Page :=
  let so := slotOffset slot_id
  if wadd so 4 > PAGE_SIZE then (.error .InvalidSlot, p)
  else if wadd so 4 > p.get_header.offset_end_free_space then (.error .NotEnoughSpace, p)
  else (.ok (),
    { contents := writeBytes p.contents so
        [lo tuple_offset_begin, hi tuple_offset_begin, lo tuple_length, hi tuple_length] })

/-- `Page::update_slot`: slot write plus header update. -/
def Page.update_slot (p : Page) (slot_id tuple_offset_begin tuple_length : Nat) :
    Except PageError Unit × Page :=
  match p.update_slot_data_only slot_id tuple_offset_begin tuple_length with
  | (.error e, q) => (.error e, q)
  | (.ok _, q) =>
    let header := q.get_header
    let so := slotOffset slot_id
    (.ok (), q.update_header (wsub header.free_space_total 4) (wadd so 4)
      header.offset_end_free_space)

/-- `Page::delete_tuple`. -/
def Page.delete_tuple (p : Page) (slot_id : Nat) : Except PageError Unit × Page :=
  match p.update_slot slot_id 0 0 with
  | (.error e, q) => (.error e, q)
  | (.ok _, q) => (.ok (), q)

/-- `Page::modify_tuple_data` (always returns `Ok` in the source). -/
def Page.modify_tuple_data (p : Page) (tuple_offset : Nat) (tuple : List Nat) : Page :=
  { contents := writeBytes p.contents tuple_offset tuple }

/-- `Page::insert_tuple`. -/
def Page.insert_tuple (p : Page) (tuple : List Nat) : Except PageError Nat × Page :=
  let header := p.get_header
  let tlen := tuple.length % U16
  let total_space_needed := wadd tlen 4
  if header.free_space_total < total_space_needed then (.error .NotEnoughSpace, p)
  else
    let slot_offset := header.offset_begin_free_space
    let slot_id := wsub slot_offset HEADER_SIZE / 2
    let tuple_offset_end := header.offset_end_free_space
    let tuple_offset_begin := wsub tuple_offset_end tlen
    match p.update_slot_data_only slot_id tuple_offset_begin tlen with
    | (.error e, q) => (.error e, q)
    | (.ok _, q) =>
      let q2 := q.modify_tuple_data tuple_offset_begin tuple
      (.ok slot_id, q2.update_header (wsub header.free_space_total total_space_needed)
        (wadd slot_offset 4) tuple_offset_begin)

/-- `Page::update_tuple`. -/
def Page.update_tuple (p : Page) (slot_id : Nat) (tuple : List Nat) :
    Except PageError Nat × Page :=
  let header := p.get_header
  match p.get_tuple_offset_and_length slot_id with
  | .error e => (.error e, p)
  | .ok (old_tuple_offset, old_tuple_length) =>
    let tlen := tuple.length % U16
    if old_tuple_offset < header.offset_begin_free_space then (.error .TupleNotFound, p)
    else if tlen > old_tuple_length then
      if tlen > header.free_space_total then (.error .NotEnoughSpace, p)
      else
        let new_tuple_offset := wsub header.offset_end_free_space tlen
        let q := p.modify_tuple_data new_tuple_offset tuple
        match q.update_slot slot_id new_tuple_offset tlen with
        | (.error e, q2) => (.error e, q2)
        | (.ok _, q2) =>
          (.ok slot_id, q2.update_header
            (wsub header.free_space_total (wsub tlen old_tuple_length))
            header.offset_begin_free_space header.offset_end_free_space)
    else
      let q := p.modify_tuple_data old_tuple_offset tuple
      (.ok slot_id, q.update_header
        (wsub header.free_space_total (wsub tlen old_tuple_length))
        header.offset_begin_free_space header.offset_end_free_space)

/-- Modelled from the spec: `Page::set_contents` is called by
`BufferPool::read_page_from_disk` but its definition is not part of the
source tree; per the spec the raw file contents "must be exactly
`PAGE_SIZE` bytes" to be interpreted as a valid page, so the call
succeeds exactly on 4096-byte inputs and replaces the page buffer. -/
def Page.set_contents (_p : Page) (bs : List Nat) : Except Unit Page :=
  if bs.length = PAGE_SIZE then .ok { contents := bs } else .error ()

/-- Association-list lookup standing in for `HashMap::get` (first match wins;
`add_page_path` prepends, so the most recent registration is found). -/
def alistFind (k : Nat) : List (Nat × String) → Option String
  | [] => none
  | (k2, v) :: rest => if k = k2 then some v else alistFind k rest

structure BufferPool where
  page_paths : List (Nat × String)
  pages : List (Nat × Page)

/-- `BufferPool::new`. -/
def BufferPool.new : BufferPool := { page_paths := [], pages := [] }

/-- `BufferPool::add_page_path` (`HashMap::insert`, last write wins). -/
def BufferPool.add_page_path (bp : BufferPool) (page_id : Nat) (path : String) : BufferPool :=
  { bp with page_paths := (page_id, path) :: bp.page_paths }

/-- `BufferPool::read_page_from_disk`. The file system is an explicit
environment `disk` mapping a path to its raw byte contents, `none`
when the file cannot be opened or read. -/
def BufferPool.read_page_from_disk (bp : BufferPool) (disk : String → Option (List Nat))
    (page_id : Nat) : Except BufferPoolError (Page × BufferPool) :=
  match alistFind page_id bp.page_paths with
  | none => .error .PageNotFound
  | some path =>
    match disk path with
    | none => .error .IoError
    | some contents =>
      match (Page.new page_id).set_contents contents with
      | .error _ => .error .IoError
      | .ok page => .ok (page, { bp with pages := (page_id, page) :: bp.pages })

/-- Run a sequence of inserts, collecting the returned slot ids;
`none` as soon as one insert fails. -/
def insertAll (p : Page) : List (List Nat) → Option (List Nat × Page)
  | [] => some ([], p)
  | t :: ts =>
    match p.insert_tuple t with
    | (.ok id, q) =>
      match insertAll q ts with
      | some (ids, r) => some (id :: ids, r)
      | none => none
    | (.error _, _) => none

/-! Concrete pages used by counterexamples and failing-input evaluations. -/

/-- 13-byte tuple from the round-trip scenario in the spec. -/
def tup13 : List Nat := List.replicate 13 65

/-- Fresh page after inserting `tup13` (slot 0 holds 13 bytes). -/
def pageIns13 : Page := ((Page.new 1).insert_tuple tup13).2

/-- Growing update of slot 0 from 13 to 40 bytes on `pageIns13`. -/
def growRes : Except PageError Nat × Page := pageIns13.update_tuple 0 (List.replicate 40 2)

/-- 100-byte tuple whose bytes 20..23, read as a slot entry, decode to
offset 4080 and length 5; inserted at offsets 3996..4096 it makes the
out-of-directory slot id 2000 (slot offset 4016) parse as a live slot. -/
def tupTrap : List Nat := List.replicate 20 0 ++ [240, 15, 5, 0] ++ List.replicate 76 0

/-- Fresh page after inserting `tupTrap`. -/
def pageTrap : Page := ((Page.new 1).insert_tuple tupTrap).2

/-- The failed update on `pageTrap` that has already written tuple bytes. -/
def trapRes : Except PageError Nat × Page := pageTrap.update_tuple 2000 (List.replicate 10 7)

/-- An insert whose 65532-byte tuple makes the u16 space check wrap:
`tuple.len() as u16 + 4` overflows to 0, so the exhaustion guard
passes even though the page has only 4080 free bytes. -/
def wrapIns : Except PageError Nat × Page :=
  (Page.new 1).insert_tuple (List.replicate 65532 0)

/-- A 1352-byte tuple; three of them nearly fill a page. -/
def tupMid : List Nat := List.replicate 1352 1

/-- One, two and three 1352-byte inserts on a fresh page; after the
third the header reads `free_space_total = 12`, `offset_begin_free_space
= 28`, `offset_end_free_space = 40`. -/
def page3a : Page := ((Page.new 1).insert_tuple tupMid).2

/-- Second insert of `tupMid` (slot 2). -/
def page3b : Page := (page3a.insert_tuple tupMid).2

/-- Third insert of `tupMid` (slot 4). -/
def page3c : Page := (page3b.insert_tuple tupMid).2

/-- `page3c` after shrinking slot 0 to the empty tuple: the header now
reads `free_space_total = 1364` while the physical gap is only 12
bytes. -/
def pageShrunk : Page := (page3c.update_tuple 0 []).2

/-- The insert on `pageShrunk` whose tuple bytes overwrite its own fresh
slot entry: 36 zero bytes are laid down at offsets 4..39, across the
slot directory. -/
def overlapRes : Except PageError Nat × Page := pageShrunk.insert_tuple (List.replicate 36 0)

/-- Resurrection trace, step 1: insert a 100-byte tuple (slot 0). -/
def resur1 : Page := ((Page.new 1).insert_tuple (List.replicate 100 3)).2

/-- Resurrection trace, step 2: insert a 10-byte tuple (slot 2, live). -/
def resur2 : Page := (resur1.insert_tuple (List.replicate 10 4)).2

/-- Resurrection trace, step 3: delete slot 2. -/
def resur3 : Page := (resur2.delete_tuple 2).2

/-- Resurrection trace, step 4: a growing update addressed to slot 1,
whose 4-byte entry overlaps the entries of slots 0 and 2; its slot
rewrite stores its new offset low bytes into slot 2's offset field. -/
def resur4 : Page := (resur3.update_tuple 1 (List.replicate 50 5)).2

/-- Nearly-full page (free space 12): an alias of `page3c`. -/
def pageFull : Page := page3c

/-- `pageFull` after three deletes of slot 0 (each drops
`free_space_total` by 4): `free_space_total = 0`. -/
def pageDel1 : Page := (pageFull.delete_tuple 0).2

/-- Second delete of slot 0. -/
def pageDel2 : Page := (pageDel1.delete_tuple 0).2

/-- Third delete of slot 0: `free_space_total = 0`. -/
def pageFst0 : Page := (pageDel2.delete_tuple 0).2

/-- A fourth delete of slot 0 on `pageFst0`: `free_space_total` wraps. -/
def wrapRes : Except PageError Unit × Page := pageFst0.delete_tuple 0

/-- Three 13-byte tuples for the sequential-insert witness. -/
def c3TupleList : List (List Nat) := [tup13, tup13, tup13]

/-- Final page of the three-insert run. -/
def c3Page : Page := ((insertAll (Page.new 1) c3TupleList).getD ([], Page.new 1)).2

/-- Invariant of insert-only page states after `k` successful inserts
from a fresh page: the slot directory ends at `16 + 4k`, the header's
free-space count matches the gap between directory and data region,
and the data region ends inside the page. -/
def InsState (p : Page) (k : Nat) : Prop :=
  PAGE_SIZE ≤ p.contents.length ∧
  p.get_header.offset_begin_free_space = 16 + 4 * k ∧
  p.get_header.offset_begin_free_space + p.get_header.free_space_total
    = p.get_header.offset_end_free_space ∧
  p.get_header.offset_end_free_space ≤ PAGE_SIZE

/-! ### Byte-level helper lemmas -/

theorem getD_append_left (l1 l2 : List Nat) (i : Nat) (h : i < l1.length) :
    (l1 ++ l2).getD i 0 = l1.getD i 0 := by
  induction l1 generalizing i with
  | nil => simp at h
  | cons a t ih =>
    cases i with
    | zero => rfl
    | succ j =>
      simp only [List.cons_append, List.getD_cons_succ]
      exact ih j (by simpa using h)

theorem getD_append_right (l1 l2 : List Nat) (i : Nat) (h : l1.length ≤ i) :
    (l1 ++ l2).getD i 0 = l2.getD (i - l1.length) 0 := by
  induction l1 generalizing i with
  | nil => simp
  | cons a t ih =>
    cases i with
    | zero => simp at h
    | succ j =>
      simp only [List.cons_append, List.getD_cons_succ, List.length_cons]
      rw [ih j (by simpa using h)]
      congr 1
      omega

theorem getD_take_lt (c : List Nat) (n i : Nat) (h : i < n) :
    (c.take n).getD i 0 = c.getD i 0 := by
  induction c generalizing n i with
  | nil => simp
  | cons a t ih =>
    cases n with
    | zero => omega
    | succ m =>
      cases i with
      | zero => rfl
      | succ j =>
        simp only [List.take_succ_cons, List.getD_cons_succ]
        exact ih m j (by omega)

theorem getD_drop (c : List Nat) (n i : Nat) :
    (c.drop n).getD i 0 = c.getD (n + i) 0 := by
  induction c generalizing n with
  | nil => simp
  | cons a t ih =>
    cases n with
    | zero => simp
    | succ m =>
      simp only [List.drop_succ_cons]
      rw [ih m]
      have : m + 1 + i = (m + i) + 1 := by omega
      rw [this, List.getD_cons_succ]

theorem length_writeBytes_eq (c : List Nat) (o : Nat) (bs : List Nat)
    (h : o + bs.length ≤ c.length) : (writeBytes c o bs).length = c.length := by
  simp only [writeBytes, List.length_append, List.length_take, List.length_drop]
  omega

theorem length_writeBytes_ge (c : List Nat) (o : Nat) (bs : List Nat) :
    c.length ≤ (writeBytes c o bs).length := by
  simp only [writeBytes, List.length_append, List.length_take, List.length_drop]
  omega

theorem getD_writeBytes_lt (c : List Nat) (o : Nat) (bs : List Nat) (i : Nat)
    (hi2 : i < o) (ho : o ≤ c.length) :
    (writeBytes c o bs).getD i 0 = c.getD i 0 := by
  unfold writeBytes
  have hlen : (c.take o).length = o := by
    simp only [List.length_take]
    omega
  rw [getD_append_left _ _ _ (by simp only [List.length_append, hlen]; omega),
    getD_append_left _ _ _ (by omega)]
  exact getD_take_lt c o i hi2

theorem getD_writeBytes_mid (c : List Nat) (o : Nat) (bs : List Nat) (i : Nat)
    (h1 : o ≤ i) (h2 : i < o + bs.length) (ho : o ≤ c.length) :
    (writeBytes c o bs).getD i 0 = bs.getD (i - o) 0 := by
  unfold writeBytes
  have hlen : (c.take o).length = o := by
    simp only [List.length_take]
    omega
  rw [getD_append_left _ _ _ (by simp only [List.length_append, hlen]; omega),
    getD_append_right _ _ _ (by omega), hlen]

theorem getD_writeBytes_ge (c : List Nat) (o : Nat) (bs : List Nat) (i : Nat)
    (h1 : o + bs.length ≤ i) (ho : o ≤ c.length) :
    (writeBytes c o bs).getD i 0 = c.getD i 0 := by
  unfold writeBytes
  have hlen : (c.take o).length = o := by
    simp only [List.length_take]
    omega
  rw [getD_append_right _ _ _ (by simp only [List.length_append, hlen]; omega), getD_drop]
  simp only [List.length_append, hlen]
  congr 1
  omega

theorem lo_add_hi (x : Nat) : lo x + 256 * hi x = x % 65536 := by
  unfold lo hi
  omega

/-- Reading a 16-bit field out of the 6 header bytes written by
`update_header` recovers the written value mod 2^16. -/
theorem rd16_write_pair (c : List Nat) (o : Nat) (pre post : List Nat) (x : Nat)
    (ho : o + pre.length ≤ c.length) :
    rd16 (writeBytes c o (pre ++ [lo x, hi x] ++ post)) (o + pre.length) = x % U16 := by
  have hblen : (pre ++ [lo x, hi x] ++ post).length = pre.length + 2 + post.length := by
    simp only [List.length_append, List.length_cons, List.length_nil]
  unfold rd16
  rw [getD_writeBytes_mid _ _ _ _ (by omega) (by omega) (by omega),
    getD_writeBytes_mid _ _ _ _ (by omega) (by omega) (by omega)]
  have h1 : o + pre.length - o = pre.length := by omega
  have h2 : o + pre.length + 1 - o = pre.length + 1 := by omega
  have hinlen : pre.length < (pre ++ [lo x, hi x]).length := by
    simp only [List.length_append, List.length_cons, List.length_nil]
    omega
  have hinlen2 : pre.length + 1 < (pre ++ [lo x, hi x]).length := by
    simp only [List.length_append, List.length_cons, List.length_nil]
    omega
  rw [h1, h2, getD_append_left _ _ _ hinlen, getD_append_left _ _ _ hinlen2,
    getD_append_right _ _ _ (by omega), getD_append_right _ _ _ (by omega)]
  have h3 : pre.length - pre.length = 0 := by omega
  have h4 : pre.length + 1 - pre.length = 1 := by omega
  rw [h3, h4]
  simp only [List.getD_cons_zero, List.getD_cons_succ]
  have hlo : lo x % 256 = lo x := Nat.mod_mod_of_dvd x (by norm_num)
  have hhi : hi x % 256 = hi x := by
    unfold hi
    exact Nat.mod_mod_of_dvd _ (by norm_num)
  rw [hlo, hhi, lo_add_hi]
  rfl

theorem rd16_writeBytes_lt (c : List Nat) (o : Nat) (bs : List Nat) (i : Nat)
    (h : i + 2 ≤ o) (ho : o ≤ c.length) :
    rd16 (writeBytes c o bs) i = rd16 c i := by
  unfold rd16
  rw [getD_writeBytes_lt _ _ _ _ (by omega) ho, getD_writeBytes_lt _ _ _ _ (by omega) ho]

theorem rd16_writeBytes_ge (c : List Nat) (o : Nat) (bs : List Nat) (i : Nat)
    (h : o + bs.length ≤ i) (ho : o ≤ c.length) :
    rd16 (writeBytes c o bs) i = rd16 c i := by
  unfold rd16
  rw [getD_writeBytes_ge _ _ _ _ (by omega) ho, getD_writeBytes_ge _ _ _ _ (by omega) ho]

theorem rd32_writeBytes_ge (c : List Nat) (o : Nat) (bs : List Nat) (i : Nat)
    (h : o + bs.length ≤ i) (ho : o ≤ c.length) :
    rd32 (writeBytes c o bs) i = rd32 c i := by
  unfold rd32
  rw [getD_writeBytes_ge _ _ _ _ (by omega) ho, getD_writeBytes_ge _ _ _ _ (by omega) ho,
    getD_writeBytes_ge _ _ _ _ (by omega) ho, getD_writeBytes_ge _ _ _ _ (by omega) ho]

theorem rd16_lt_u16 (c : List Nat) (i : Nat) : rd16 c i < U16 := by
  unfold rd16 U16
  have h1 : c.getD i 0 % 256 < 256 := Nat.mod_lt _ (by norm_num)
  have h2 : c.getD (i + 1) 0 % 256 < 256 := Nat.mod_lt _ (by norm_num)
  omega

theorem rd32_writeBytes_lt (c : List Nat) (o : Nat) (bs : List Nat) (i : Nat)
    (h : i + 4 ≤ o) (ho : o ≤ c.length) :
    rd32 (writeBytes c o bs) i = rd32 c i := by
  unfold rd32
  rw [getD_writeBytes_lt _ _ _ _ (by omega) ho, getD_writeBytes_lt _ _ _ _ (by omega) ho,
    getD_writeBytes_lt _ _ _ _ (by omega) ho, getD_writeBytes_lt _ _ _ _ (by omega) ho]

/-! ### Wrapping-arithmetic helper lemmas -/

theorem wadd_small (a b : Nat) (h : a + b < U16) : wadd a b = a + b := by
  unfold wadd U16 at *
  omega

theorem wsub_small (a b : Nat) (ha : a < U16) (hb : b ≤ a) : wsub a b = a - b := by
  unfold wsub U16 at *
  omega

theorem mod_u16_small (a : Nat) (h : a < U16) : a % U16 = a := by
  unfold U16 at *
  omega

theorem wsub_shrink (fst tlen l : Nat) (hf : fst < U16) (hl : l < U16) (ht : tlen ≤ l)
    (hov : fst + (l - tlen) < U16) : wsub fst (wsub tlen l) = fst + (l - tlen) := by
  unfold wsub U16 at *
  omega

theorem wsub_shrink_mod (fst tlen l : Nat) (hf : fst < U16) (hl : l < U16) (ht : tlen ≤ l) :
    wsub fst (wsub tlen l) = (fst + (l - tlen)) % U16 := by
  unfold wsub U16 at *
  omega

/-! ### Header read-back lemmas -/

theorem get_header_update_header (p : Page) (f b e : Nat) (h : 10 ≤ p.contents.length) :
    (p.update_header f b e).get_header =
      { page_id := p.get_header.page_id, free_space_total := f % U16,
        offset_begin_free_space := b % U16, offset_end_free_space := e % U16 } := by
  unfold Page.update_header Page.get_header
  simp only [PageHeader.mk.injEq]
  refine ⟨?_, ?_, ?_, ?_⟩
  · exact rd32_writeBytes_lt _ _ _ _ (by omega) (by omega)
  · have := rd16_write_pair p.contents 4 [] [lo b, hi b, lo e, hi e] f (by simp; omega)
    simpa using this
  · have := rd16_write_pair p.contents 4 [lo f, hi f] [lo e, hi e] b (by simp; omega)
    simpa using this
  · have := rd16_write_pair p.contents 4 [lo f, hi f, lo b, hi b] [] e (by simp; omega)
    simpa using this

theorem get_header_write_high (p : Page) (o : Nat) (bs : List Nat)
    (h10 : 10 ≤ o) (ho : o ≤ p.contents.length) :
    Page.get_header { contents := writeBytes p.contents o bs } = p.get_header := by
  unfold Page.get_header
  simp only [PageHeader.mk.injEq]
  exact ⟨rd32_writeBytes_lt _ _ _ _ (by omega) ho,
    rd16_writeBytes_lt _ _ _ _ (by omega) ho,
    rd16_writeBytes_lt _ _ _ _ (by omega) ho,
    rd16_writeBytes_lt _ _ _ _ (by omega) ho⟩

/-- The header of a fresh page. -/
theorem get_header_new (page_id : Nat) :
    (Page.new page_id).get_header =
      { page_id := page_id % 4294967296, free_space_total := 4080,
        offset_begin_free_space := 16, offset_end_free_space := 4096 } := by
  have h0 : (Page.new page_id).contents.getD 0 0 = page_id % 256 := rfl
  have h1 : (Page.new page_id).contents.getD 1 0 = page_id / 256 % 256 := rfl
  have h2 : (Page.new page_id).contents.getD 2 0 = page_id / 65536 % 256 := rfl
  have h3 : (Page.new page_id).contents.getD 3 0 = page_id / 16777216 % 256 := rfl
  have h4 : (Page.new page_id).contents.getD 4 0 = 240 := rfl
  have h5 : (Page.new page_id).contents.getD 5 0 = 15 := rfl
  have h6 : (Page.new page_id).contents.getD 6 0 = 16 := rfl
  have h7 : (Page.new page_id).contents.getD 7 0 = 0 := rfl
  have h8 : (Page.new page_id).contents.getD 8 0 = 0 := rfl
  have h9 : (Page.new page_id).contents.getD 9 0 = 16 := rfl
  unfold Page.get_header rd16 rd32
  rw [h0, h1, h2, h3, h4, h5, h6, h7, h8, h9]
  simp only [PageHeader.mk.injEq]
  refine ⟨by omega, by norm_num, by norm_num, by norm_num⟩

theorem contents_length_new (page_id : Nat) : (Page.new page_id).contents.length = 4096 := by
  unfold Page.new
  rw [List.length_append, List.length_replicate]
  rfl

theorem wsub_lt_u16 (a b : Nat) : wsub a b < U16 :=
  Nat.mod_lt _ (by unfold U16; omega)

theorem wadd_lt_u16 (a b : Nat) : wadd a b < U16 :=
  Nat.mod_lt _ (by unfold U16; omega)

theorem slotOffset_small (s : Nat) (h : s ≤ 32759) : slotOffset s = 16 + 2 * s := by
  unfold slotOffset wadd U16 HEADER_SIZE
  omega

/-! ### Characterization of `update_slot` on its success path -/

theorem update_slot_spec (p : Page) (s o l : Nat)
    (hs : s ≤ 2038)
    (hlen : PAGE_SIZE ≤ p.contents.length)
    (hend : 16 + 2 * s + 4 ≤ p.get_header.offset_end_free_space) :
    (p.update_slot s o l).1 = .ok () ∧
    (p.update_slot s o l).2.get_header.page_id = p.get_header.page_id ∧
    (p.update_slot s o l).2.get_header.free_space_total
      = wsub p.get_header.free_space_total 4 ∧
    (p.update_slot s o l).2.get_header.offset_begin_free_space = 16 + 2 * s + 4 ∧
    (p.update_slot s o l).2.get_header.offset_end_free_space
      = p.get_header.offset_end_free_space ∧
    rd16 (p.update_slot s o l).2.contents (16 + 2 * s) = o % U16 ∧
    rd16 (p.update_slot s o l).2.contents (16 + 2 * s + 2) = l % U16 ∧
    (∀ i, i < 4 ∨ (10 ≤ i ∧ i < 16 + 2 * s) ∨ 16 + 2 * s + 4 ≤ i →
      (p.update_slot s o l).2.contents.getD i 0 = p.contents.getD i 0) ∧
    (p.update_slot s o l).2.contents.length = p.contents.length := by
  have hPS : PAGE_SIZE = 4096 := rfl
  rw [hPS] at hlen
  have hso : slotOffset s = 16 + 2 * s := slotOffset_small s (by omega)
  have hso4 : wadd (slotOffset s) 4 = 16 + 2 * s + 4 := by
    rw [hso, wadd_small _ _ (by unfold U16; omega)]
  have hg1 : ¬ (wadd (slotOffset s) 4 > PAGE_SIZE) := by
    rw [hso4, hPS]
    omega
  have hg2 : ¬ (wadd (slotOffset s) 4 > p.get_header.offset_end_free_space) := by
    rw [hso4]
    omega
  have hdata : p.update_slot_data_only s o l =
      (.ok (), { contents := writeBytes p.contents (16 + 2 * s) [lo o, hi o, lo l, hi l] }) := by
    unfold Page.update_slot_data_only
    rw [if_neg hg1, if_neg hg2, hso]
  have hq1len : (writeBytes p.contents (16 + 2 * s) [lo o, hi o, lo l, hi l]).length
      = p.contents.length := by
    apply length_writeBytes_eq
    simp only [List.length_cons, List.length_nil]
    omega
  have hq1len2 : (Page.mk (writeBytes p.contents (16 + 2 * s)
      [lo o, hi o, lo l, hi l])).contents.length = p.contents.length := hq1len
  have hq1hdr : Page.get_header
      { contents := writeBytes p.contents (16 + 2 * s) [lo o, hi o, lo l, hi l] }
      = p.get_header :=
    get_header_write_high p (16 + 2 * s) _ (by omega) (by omega)
  have hrun : p.update_slot s o l =
      (.ok (), (Page.update_header
        { contents := writeBytes p.contents (16 + 2 * s) [lo o, hi o, lo l, hi l] }
        (wsub p.get_header.free_space_total 4) (wadd (slotOffset s) 4)
        p.get_header.offset_end_free_space)) := by
    unfold Page.update_slot
    rw [hdata]
    simp only [hq1hdr]
  have hfin := get_header_update_header
    { contents := writeBytes p.contents (16 + 2 * s) [lo o, hi o, lo l, hi l] }
    (wsub p.get_header.free_space_total 4) (wadd (slotOffset s) 4)
    p.get_header.offset_end_free_space (by simp only [hq1len]; omega)
  have hendlt : p.get_header.offset_end_free_space < U16 := rd16_lt_u16 _ _
  refine ⟨by rw [hrun], ?_, ?_, ?_, ?_, ?_, ?_, ?_, ?_⟩
  · rw [hrun]
    simp only [hfin, hq1hdr]
  · rw [hrun]
    simp only [hfin]
    exact mod_u16_small _ (wsub_lt_u16 _ _)
  · rw [hrun]
    simp only [hfin]
    rw [hso4]
    exact mod_u16_small (16 + 2 * s + 4) (by unfold U16; omega)
  · rw [hrun]
    simp only [hfin]
    exact mod_u16_small _ hendlt
  · rw [hrun]
    unfold Page.update_header
    rw [rd16_writeBytes_ge _ _ _ _ (by simp only [List.length_cons, List.length_nil]; omega)
      (by omega)]
    have := rd16_write_pair p.contents (16 + 2 * s) [] [lo l, hi l] o (by simp; omega)
    simpa using this
  · rw [hrun]
    unfold Page.update_header
    rw [rd16_writeBytes_ge _ _ _ _ (by simp only [List.length_cons, List.length_nil]; omega)
      (by omega)]
    have := rd16_write_pair p.contents (16 + 2 * s) [lo o, hi o] [] l (by simp; omega)
    have h2 : 16 + 2 * s + [lo o, hi o].length = 16 + 2 * s + 2 := by simp
    rw [h2] at this
    simpa using this
  · intro i hi2
    rw [hrun]
    unfold Page.update_header
    rcases hi2 with h1 | h2 | h3
    · rw [getD_writeBytes_lt _ _ _ _ (by omega) (by omega),
        getD_writeBytes_lt _ _ _ _ (by omega) (by omega)]
    · rw [getD_writeBytes_ge _ _ _ _ (by simp only [List.length_cons, List.length_nil]; omega)
        (by omega),
        getD_writeBytes_lt _ _ _ _ (by omega) (by omega)]
    · rw [getD_writeBytes_ge _ _ _ _ (by simp only [List.length_cons, List.length_nil]; omega)
        (by omega),
        getD_writeBytes_ge _ _ _ _ (by simp only [List.length_cons, List.length_nil]; omega)
        (by omega)]
  · rw [hrun]
    unfold Page.update_header
    rw [length_writeBytes_eq _ _ _ (by simp only [List.length_cons, List.length_nil]; omega), hq1len]

/-- `delete_tuple` is `update_slot` with a zeroed entry; on the success
path it returns `Ok` and performs exactly the slot zeroing plus header
rewrite of `update_slot`. -/
theorem delete_tuple_spec (p : Page) (s : Nat)
    (hs : s ≤ 2038)
    (hlen : PAGE_SIZE ≤ p.contents.length)
    (hend : 16 + 2 * s + 4 ≤ p.get_header.offset_end_free_space) :
    (p.delete_tuple s).1 = .ok () ∧
    (p.delete_tuple s).2.get_header.page_id = p.get_header.page_id ∧
    (p.delete_tuple s).2.get_header.free_space_total
      = wsub p.get_header.free_space_total 4 ∧
    (p.delete_tuple s).2.get_header.offset_begin_free_space = 16 + 2 * s + 4 ∧
    (p.delete_tuple s).2.get_header.offset_end_free_space
      = p.get_header.offset_end_free_space ∧
    rd16 (p.delete_tuple s).2.contents (16 + 2 * s) = 0 ∧
    rd16 (p.delete_tuple s).2.contents (16 + 2 * s + 2) = 0 ∧
    (∀ i, i < 4 ∨ (10 ≤ i ∧ i < 16 + 2 * s) ∨ 16 + 2 * s + 4 ≤ i →
      (p.delete_tuple s).2.contents.getD i 0 = p.contents.getD i 0) ∧
    (p.delete_tuple s).2.contents.length = p.contents.length := by
  have hspec := update_slot_spec p s 0 0 hs hlen hend
  rcases hrun : p.update_slot s 0 0 with ⟨r, q⟩
  rw [hrun] at hspec
  obtain ⟨h1, hspec⟩ := hspec
  simp only at h1
  subst h1
  have hdel : p.delete_tuple s = (.ok (), q) := by
    unfold Page.delete_tuple
    rw [hrun]
  rw [hdel]
  have h0 : (0 : Nat) % U16 = 0 := rfl
  rw [h0] at hspec
  exact ⟨rfl, hspec.1, hspec.2.1, hspec.2.2.1, hspec.2.2.2.1, hspec.2.2.2.2.1,
    hspec.2.2.2.2.2.1, hspec.2.2.2.2.2.2.1, hspec.2.2.2.2.2.2.2⟩

/-- A slot whose stored entry is `(0, 0)` reads as `TupleNotFound`
whenever the free region begins after offset 0. -/
theorem get_data_zero_slot (q : Page) (s : Nat)
    (hs : s ≤ 2038)
    (h0 : rd16 q.contents (16 + 2 * s) = 0)
    (h2 : rd16 q.contents (16 + 2 * s + 2) = 0)
    (hb : 0 < q.get_header.offset_begin_free_space) :
    q.get_data s = .error .TupleNotFound := by
  have hso : slotOffset s = 16 + 2 * s := slotOffset_small s (by omega)
  have hso4 : wadd (slotOffset s) 4 = 16 + 2 * s + 4 := by
    rw [hso, wadd_small _ _ (by unfold U16; omega)]
  have htup : q.get_tuple_offset_and_length s = .ok (0, 0) := by
    unfold Page.get_tuple_offset_and_length
    rw [if_neg (by rw [hso4]; unfold PAGE_SIZE; omega), hso, h0, h2]
  unfold Page.get_data
  rw [htup]
  simp only
  rw [if_neg (by unfold wadd PAGE_SIZE U16; omega), if_pos hb]

/-- A slot whose stored entry is `(0, 0)` makes `update_tuple` fail with
`TupleNotFound` and leave the page untouched, whenever the free region
begins after offset 0. -/
theorem update_tuple_zero_slot (q : Page) (s : Nat) (t : List Nat)
    (hs : s ≤ 2038)
    (h0 : rd16 q.contents (16 + 2 * s) = 0)
    (h2 : rd16 q.contents (16 + 2 * s + 2) = 0)
    (hb : 0 < q.get_header.offset_begin_free_space) :
    q.update_tuple s t = (.error .TupleNotFound, q) := by
  have hso : slotOffset s = 16 + 2 * s := slotOffset_small s (by omega)
  have hso4 : wadd (slotOffset s) 4 = 16 + 2 * s + 4 := by
    rw [hso, wadd_small _ _ (by unfold U16; omega)]
  have htup : q.get_tuple_offset_and_length s = .ok (0, 0) := by
    unfold Page.get_tuple_offset_and_length
    rw [if_neg (by rw [hso4]; unfold PAGE_SIZE; omega), hso, h0, h2]
  unfold Page.update_tuple
  rw [htup]
  simp only
  rw [if_pos hb]

theorem update_slot_data_only_len (p : Page) (s o l : Nat) :
    p.contents.length ≤ (p.update_slot_data_only s o l).2.contents.length := by
  simp only [Page.update_slot_data_only]
  split
  · exact Nat.le_refl _
  · split
    · exact Nat.le_refl _
    · exact length_writeBytes_ge _ _ _

/-- What a successful `insert_tuple` returns and does to the header, for
tuples whose length fits `u16` arithmetic (longer tuples cannot complete
a successful call in the source: the byte copy into the carved region
would be a length-mismatched slice copy). -/
theorem insert_tuple_ok_spec (p : Page) (t : List Nat) (id : Nat)
    (hlen : 10 ≤ p.contents.length)
    (ht : t.length + 4 < U16)
    (hok : (p.insert_tuple t).1 = .ok id) :
    t.length + 4 ≤ p.get_header.free_space_total ∧
    id = wsub p.get_header.offset_begin_free_space HEADER_SIZE / 2 ∧
    (p.insert_tuple t).2.get_header.free_space_total
      = wsub p.get_header.free_space_total (t.length + 4) ∧
    (p.insert_tuple t).2.get_header.offset_begin_free_space
      = wadd p.get_header.offset_begin_free_space 4 ∧
    (p.insert_tuple t).2.get_header.offset_end_free_space
      = wsub p.get_header.offset_end_free_space t.length ∧
    p.contents.length ≤ (p.insert_tuple t).2.contents.length := by
  have htlen : t.length % U16 = t.length := mod_u16_small _ (by omega)
  have htot : wadd (t.length % U16) 4 = t.length + 4 := by
    rw [htlen]
    exact wadd_small _ _ ht
  by_cases hguard : p.get_header.free_space_total < wadd (t.length % U16) 4
  · have hrun : p.insert_tuple t = (.error .NotEnoughSpace, p) := by
      simp only [Page.insert_tuple]
      rw [if_pos hguard]
    rw [hrun] at hok
    simp at hok
  · rcases hdata : p.update_slot_data_only
        (wsub p.get_header.offset_begin_free_space HEADER_SIZE / 2)
        (wsub p.get_header.offset_end_free_space (t.length % U16))
        (t.length % U16) with ⟨r, q⟩
    cases r with
    | error e =>
      have hrun : p.insert_tuple t = (.error e, q) := by
        simp only [Page.insert_tuple]
        rw [if_neg hguard, hdata]
      rw [hrun] at hok
      simp at hok
    | ok u =>
      have hqlen : p.contents.length ≤ q.contents.length := by
        have := update_slot_data_only_len p
          (wsub p.get_header.offset_begin_free_space HEADER_SIZE / 2)
          (wsub p.get_header.offset_end_free_space (t.length % U16))
          (t.length % U16)
        rw [hdata] at this
        exact this
      have hrun : p.insert_tuple t =
          (.ok (wsub p.get_header.offset_begin_free_space HEADER_SIZE / 2),
           Page.update_header
             { contents := writeBytes q.contents
                 (wsub p.get_header.offset_end_free_space (t.length % U16)) t }
             (wsub p.get_header.free_space_total (wadd (t.length % U16) 4))
             (wadd p.get_header.offset_begin_free_space 4)
             (wsub p.get_header.offset_end_free_space (t.length % U16))) := by
        simp only [Page.insert_tuple, Page.modify_tuple_data]
        rw [if_neg hguard, hdata]
      have hwlen : 10 ≤ (writeBytes q.contents
          (wsub p.get_header.offset_end_free_space (t.length % U16)) t).length := by
        have := length_writeBytes_ge q.contents
          (wsub p.get_header.offset_end_free_space (t.length % U16)) t
        omega
      have hhdr := get_header_update_header
        { contents := writeBytes q.contents
            (wsub p.get_header.offset_end_free_space (t.length % U16)) t }
        (wsub p.get_header.free_space_total (wadd (t.length % U16) 4))
        (wadd p.get_header.offset_begin_free_space 4)
        (wsub p.get_header.offset_end_free_space (t.length % U16)) hwlen
      refine ⟨by rw [htot] at hguard; omega, ?_, ?_, ?_, ?_, ?_⟩
      · rw [hrun] at hok
        simp only [Except.ok.injEq] at hok
        exact hok.symm
      · rw [hrun]
        simp only [hhdr]
        rw [htot]
        exact mod_u16_small _ (wsub_lt_u16 _ _)
      · rw [hrun]
        simp only [hhdr]
        exact mod_u16_small _ (wadd_lt_u16 _ _)
      · rw [hrun]
        simp only [hhdr]
        rw [htlen]
        exact mod_u16_small _ (wsub_lt_u16 _ _)
      · rw [hrun]
        simp only [Page.update_header]
        have h1 := length_writeBytes_ge
          (writeBytes q.contents
            (wsub p.get_header.offset_end_free_space (t.length % U16)) t) 4
          [lo (wsub p.get_header.free_space_total (wadd (t.length % U16) 4)),
           hi (wsub p.get_header.free_space_total (wadd (t.length % U16) 4)),
           lo (wadd p.get_header.offset_begin_free_space 4),
           hi (wadd p.get_header.offset_begin_free_space 4),
           lo (wsub p.get_header.offset_end_free_space (t.length % U16)),
           hi (wsub p.get_header.offset_end_free_space (t.length % U16))]
        have h2 := length_writeBytes_ge q.contents
          (wsub p.get_header.offset_end_free_space (t.length % U16)) t
        omega

theorem get_tuple_ok_bounds (p : Page) (s o l : Nat)
    (h : p.get_tuple_offset_and_length s = .ok (o, l)) : o < U16 ∧ l < U16 := by
  simp only [Page.get_tuple_offset_and_length] at h
  split at h
  · simp at h
  · simp only [Except.ok.injEq, Prod.mk.injEq] at h
    obtain ⟨ho, hl⟩ := h
    exact ⟨ho ▸ rd16_lt_u16 _ _, hl ▸ rd16_lt_u16 _ _⟩

theorem update_slot_len (p : Page) (s o l : Nat) :
    p.contents.length ≤ (p.update_slot s o l).2.contents.length := by
  unfold Page.update_slot
  rcases hdata : p.update_slot_data_only s o l with ⟨r, q⟩
  have hq : p.contents.length ≤ q.contents.length := by
    have := update_slot_data_only_len p s o l
    rw [hdata] at this
    exact this
  cases r with
  | error e => exact hq
  | ok u =>
    simp only [Page.update_header]
    have := length_writeBytes_ge q.contents 4
      [lo (wsub q.get_header.free_space_total 4), hi (wsub q.get_header.free_space_total 4),
       lo (wadd (slotOffset s) 4), hi (wadd (slotOffset s) 4),
       lo q.get_header.offset_end_free_space, hi q.get_header.offset_end_free_space]
    omega

/-- A successful growing `update_tuple` requires the new length to fit in
`free_space_total` and subtracts exactly the growth delta from it. -/
theorem update_tuple_grow_fst (p : Page) (s : Nat) (t : List Nat) (id o l : Nat)
    (hlen : 10 ≤ p.contents.length)
    (hslot : p.get_tuple_offset_and_length s = .ok (o, l))
    (hgrow : l < t.length)
    (ht : t.length < U16)
    (hok : (p.update_tuple s t).1 = .ok id) :
    t.length ≤ p.get_header.free_space_total ∧
    (p.update_tuple s t).2.get_header.free_space_total
      = p.get_header.free_space_total - (t.length - l) := by
  have htlen : t.length % U16 = t.length := mod_u16_small _ ht
  have hfstlt : p.get_header.free_space_total < U16 := rd16_lt_u16 _ _
  by_cases hlive : o < p.get_header.offset_begin_free_space
  · have hrun : p.update_tuple s t = (.error .TupleNotFound, p) := by
      simp only [Page.update_tuple, hslot]
      rw [if_pos hlive]
    rw [hrun] at hok
    simp at hok
  · have hgt : t.length % U16 > l := by omega
    by_cases hspace : t.length % U16 > p.get_header.free_space_total
    · have hrun : p.update_tuple s t = (.error .NotEnoughSpace, p) := by
        simp only [Page.update_tuple, hslot]
        rw [if_neg hlive, if_pos hgt, if_pos hspace]
      rw [hrun] at hok
      simp at hok
    · rcases hupd : (p.modify_tuple_data
          (wsub p.get_header.offset_end_free_space (t.length % U16)) t).update_slot s
          (wsub p.get_header.offset_end_free_space (t.length % U16)) (t.length % U16)
        with ⟨r, q2⟩
      cases r with
      | error e =>
        have hrun : p.update_tuple s t = (.error e, q2) := by
          simp only [Page.update_tuple, hslot]
          rw [if_neg hlive, if_pos hgt, if_neg hspace, hupd]
        rw [hrun] at hok
        simp at hok
      | ok u =>
        have hq2len : 10 ≤ q2.contents.length := by
          have h1 := update_slot_len (p.modify_tuple_data
            (wsub p.get_header.offset_end_free_space (t.length % U16)) t) s
            (wsub p.get_header.offset_end_free_space (t.length % U16)) (t.length % U16)
          rw [hupd] at h1
          have h2 := length_writeBytes_ge p.contents
            (wsub p.get_header.offset_end_free_space (t.length % U16)) t
          simp only [Page.modify_tuple_data] at h1
          omega
        have hrun : p.update_tuple s t =
            (.ok s, q2.update_header
              (wsub p.get_header.free_space_total (wsub (t.length % U16) l))
              p.get_header.offset_begin_free_space
              p.get_header.offset_end_free_space) := by
          simp only [Page.update_tuple, hslot]
          rw [if_neg hlive, if_pos hgt, if_neg hspace, hupd]
        constructor
        · omega
        · rw [hrun]
          simp only [get_header_update_header q2 _ _ _ hq2len]
          rw [htlen, wsub_small t.length l ht (by omega),
            wsub_small _ _ hfstlt (by omega)]
          exact mod_u16_small _ (by omega)

/-- A successful shrinking (or equal-length) `update_tuple` adds the
shrink delta back to `free_space_total`, modulo 2^16: the 16-bit header
field wraps when the sum overflows. -/
theorem update_tuple_shrink_fst (p : Page) (s : Nat) (t : List Nat) (id o l : Nat)
    (hlen : 10 ≤ p.contents.length)
    (hslot : p.get_tuple_offset_and_length s = .ok (o, l))
    (hshrink : t.length ≤ l)
    (hok : (p.update_tuple s t).1 = .ok id) :
    (p.update_tuple s t).2.get_header.free_space_total
      = (p.get_header.free_space_total + (l - t.length)) % U16 := by
  have hlu : l < U16 := (get_tuple_ok_bounds p s o l hslot).2
  have htlen : t.length % U16 = t.length := mod_u16_small _ (by omega)
  have hfstlt : p.get_header.free_space_total < U16 := rd16_lt_u16 _ _
  by_cases hlive : o < p.get_header.offset_begin_free_space
  · have hrun : p.update_tuple s t = (.error .TupleNotFound, p) := by
      simp only [Page.update_tuple, hslot]
      rw [if_pos hlive]
    rw [hrun] at hok
    simp at hok
  · have hngt : ¬ (t.length % U16 > l) := by omega
    have hrun : p.update_tuple s t =
        (.ok s, (p.modify_tuple_data o t).update_header
          (wsub p.get_header.free_space_total (wsub (t.length % U16) l))
          p.get_header.offset_begin_free_space
          p.get_header.offset_end_free_space) := by
      simp only [Page.update_tuple, hslot]
      rw [if_neg hlive, if_neg hngt]
    have hqlen : 10 ≤ (p.modify_tuple_data o t).contents.length := by
      simp only [Page.modify_tuple_data]
      have := length_writeBytes_ge p.contents o t
      omega
    rw [hrun]
    simp only [get_header_update_header _ _ _ _ hqlen]
    rw [htlen, wsub_shrink_mod _ _ _ hfstlt hlu hshrink]
    exact Nat.mod_mod_of_dvd _ dvd_rfl

/-- One successful insert from an insert-only state with `k` prior
inserts returns slot id `2k` and re-establishes the state for `k + 1`. -/
theorem insert_step (p : Page) (k : Nat) (t : List Nat) (id : Nat)
    (hstate : InsState p k)
    (ht : t.length + 4 < U16)
    (hok : (p.insert_tuple t).1 = .ok id) :
    id = 2 * k ∧ InsState (p.insert_tuple t).2 (k + 1) := by
  obtain ⟨hlen, hbegin, hsum, hend⟩ := hstate
  have hPS : PAGE_SIZE = (4096 : Nat) := rfl
  rw [hPS] at hlen hend
  obtain ⟨hfit, hid, hfst, hbeg2, hend2, hlen2⟩ :=
    insert_tuple_ok_spec p t id (by omega) ht hok
  have hbeglt : p.get_header.offset_begin_free_space < U16 := rd16_lt_u16 _ _
  have hendlt : p.get_header.offset_end_free_space < U16 := rd16_lt_u16 _ _
  have hfstlt : p.get_header.free_space_total < U16 := rd16_lt_u16 _ _
  have hk : 16 + 4 * k ≤ 4096 := by
    rw [hbegin] at hsum
    omega
  have hidval : id = 2 * k := by
    rw [hbegin] at hid
    rw [wsub_small _ _ (by rw [hbegin] at hbeglt; exact hbeglt) (by unfold HEADER_SIZE; omega)]
      at hid
    unfold HEADER_SIZE at hid
    omega
  refine ⟨hidval, ?_, ?_, ?_, ?_⟩
  · rw [hPS]
    omega
  · rw [hbeg2, hbegin, wadd_small _ _ (by unfold U16; omega)]
    omega
  · rw [hbeg2, hfst, hend2, hbegin,
      wadd_small _ _ (by unfold U16; omega),
      wsub_small _ _ hfstlt (by omega),
      wsub_small _ _ hendlt (by rw [hbegin] at hsum; omega)]
    rw [hbegin] at hsum
    omega
  · rw [hPS, hend2, wsub_small _ _ hendlt (by rw [hbegin] at hsum; omega)]
    omega

/-- Ids returned by a run of successful inserts starting in state `k`
are `2k, 2(k+1), ...` in call order. -/
theorem insertAll_ids (ts : List (List Nat)) : ∀ (p : Page) (k : Nat) (ids : List Nat)
    (q : Page), (∀ t ∈ ts, t.length + 4 < U16) → InsState p k →
    insertAll p ts = some (ids, q) →
    ids = (List.range ts.length).map (fun i => 2 * (k + i)) := by
  induction ts with
  | nil =>
    intro p k ids q hts hst h
    simp only [insertAll, Option.some.injEq, Prod.mk.injEq] at h
    simp [h.1.symm]
  | cons t ts ih =>
    intro p k ids q hts hst h
    simp only [insertAll] at h
    rcases hins : p.insert_tuple t with ⟨r, p1⟩
    simp only [hins] at h
    cases r with
    | error e => simp at h
    | ok id =>
      have hok : (p.insert_tuple t).1 = .ok id := by rw [hins]
      obtain ⟨hid, hst1⟩ := insert_step p k t id hst (hts t (by simp)) hok
      rw [hins] at hst1
      rcases hrest : insertAll p1 ts with _ | ⟨ids2, q2⟩
      · simp only [hrest] at h
        exact Option.noConfusion h
      · simp only [hrest, Option.some.injEq, Prod.mk.injEq] at h
        have hih := ih p1 (k + 1) ids2 q2 (fun u hu => hts u (by simp [hu])) hst1 hrest
        rw [← h.1, hih, hid]
        have htl : List.map (fun i => 2 * (k + 1 + i)) (List.range ts.length)
            = List.map ((fun i => 2 * (k + i)) ∘ Nat.succ) (List.range ts.length) := by
          apply List.map_congr_left
          intro i _
          simp only [Function.comp_apply, Nat.succ_eq_add_one]
          omega
        rw [List.length_cons, List.range_succ_eq_map, List.map_cons, List.map_map, ← htl]
        simp

/-! ### Length facts for the concrete trace pages (derived from the
insert characterization, so no 4096-deep list evaluation is needed) -/

theorem tupMid_len : tupMid.length = 1352 := by
  unfold tupMid
  rw [List.length_replicate]

theorem pageIns13_len : 4096 ≤ pageIns13.contents.length := by
  have h := (insert_tuple_ok_spec (Page.new 1) tup13 0
    (by rw [contents_length_new]; omega) (by decide) rfl).2.2.2.2.2
  rw [contents_length_new] at h
  exact h

theorem resur1_len : 4096 ≤ resur1.contents.length := by
  have h := (insert_tuple_ok_spec (Page.new 1) (List.replicate 100 3) 0
    (by rw [contents_length_new]; omega) (by decide) rfl).2.2.2.2.2
  rw [contents_length_new] at h
  exact h

theorem resur2_len : 4096 ≤ resur2.contents.length := by
  have h := (insert_tuple_ok_spec resur1 (List.replicate 10 4) 2
    (by have := resur1_len; omega) (by decide) rfl).2.2.2.2.2
  have h1 := resur1_len
  have h2 : resur2.contents.length
      = (resur1.insert_tuple (List.replicate 10 4)).2.contents.length := rfl
  omega

theorem page3a_len : 4096 ≤ page3a.contents.length := by
  have h := (insert_tuple_ok_spec (Page.new 1) tupMid 0
    (by rw [contents_length_new]; omega) (by rw [tupMid_len]; unfold U16; omega)
    rfl).2.2.2.2.2
  rw [contents_length_new] at h
  exact h

theorem page3b_len : 4096 ≤ page3b.contents.length := by
  have h := (insert_tuple_ok_spec page3a tupMid 2
    (by have := page3a_len; omega) (by rw [tupMid_len]; unfold U16; omega)
    rfl).2.2.2.2.2
  have h1 := page3a_len
  have h2 : page3b.contents.length = (page3a.insert_tuple tupMid).2.contents.length := rfl
  omega

theorem pageFull_len : 4096 ≤ pageFull.contents.length := by
  have h := (insert_tuple_ok_spec page3b tupMid 4
    (by have := page3b_len; omega) (by rw [tupMid_len]; unfold U16; omega)
    rfl).2.2.2.2.2
  have h1 := page3b_len
  have h2 : pageFull.contents.length = (page3b.insert_tuple tupMid).2.contents.length := rfl
  omega

/-- A 65532-byte insert on a fresh page is accepted: the u16 total
`65532 + 4` wraps to 0, so the guard `free_space_total < 0` is false and
the insert runs to completion, returning slot id 0. -/
theorem wrapIns_fst : wrapIns.1 = .ok 0 := by
  have hlen65 : (List.replicate 65532 (0 : Nat)).length % U16 = 65532 := by
    rw [List.length_replicate]
    decide
  have hguard : ¬ ((Page.new 1).get_header.free_space_total
      < wadd ((List.replicate 65532 (0 : Nat)).length % U16) 4) := by
    rw [get_header_new, hlen65]
    decide
  have hg1 : ¬ (wadd (slotOffset (wsub (Page.new 1).get_header.offset_begin_free_space
      HEADER_SIZE / 2)) 4 > PAGE_SIZE) := by
    rw [get_header_new]
    decide
  have hg2 : ¬ (wadd (slotOffset (wsub (Page.new 1).get_header.offset_begin_free_space
      HEADER_SIZE / 2)) 4 > (Page.new 1).get_header.offset_end_free_space) := by
    rw [get_header_new]
    decide
  have hdata : (Page.new 1).update_slot_data_only
      (wsub (Page.new 1).get_header.offset_begin_free_space HEADER_SIZE / 2)
      (wsub (Page.new 1).get_header.offset_end_free_space
        ((List.replicate 65532 (0 : Nat)).length % U16))
      ((List.replicate 65532 (0 : Nat)).length % U16)
      = (.ok (), Page.mk (writeBytes (Page.new 1).contents
          (slotOffset (wsub (Page.new 1).get_header.offset_begin_free_space HEADER_SIZE / 2))
          [lo (wsub (Page.new 1).get_header.offset_end_free_space
            ((List.replicate 65532 (0 : Nat)).length % U16)),
           hi (wsub (Page.new 1).get_header.offset_end_free_space
            ((List.replicate 65532 (0 : Nat)).length % U16)),
           lo ((List.replicate 65532 (0 : Nat)).length % U16),
           hi ((List.replicate 65532 (0 : Nat)).length % U16)])) := by
    simp only [Page.update_slot_data_only]
    rw [if_neg hg1, if_neg hg2]
  unfold wrapIns
  simp only [Page.insert_tuple, Page.modify_tuple_data]
  rw [if_neg hguard, hdata]
  rw [get_header_new]
  decide

/-! ### Claim theorems -/

/-- C1: the header invariant `offset_begin_free_space <= offset_end_free_space
<= PAGE_SIZE` with `free_space_total == offset_end_free_space -
offset_begin_free_space` is NOT preserved by every successful operation:
after inserting a 13-byte tuple into a fresh page and growing it to 40
bytes with `update_tuple` (both calls succeed), the header reads
`free_space_total = 4036` while the free gap is `4083 - 20 = 4063`;
`update_tuple` rewrites the header from its stale pre-call copy and never
moves `offset_end_free_space` past the relocated bytes. -/
theorem claim1_header_invariant_broken :
    growRes.1 = .ok 0 ∧
    growRes.2.get_header.free_space_total = 4036 ∧
    growRes.2.get_header.offset_begin_free_space = 20 ∧
    growRes.2.get_header.offset_end_free_space = 4083 ∧
    growRes.2.get_header.offset_end_free_space
      - growRes.2.get_header.offset_begin_free_space
      ≠ growRes.2.get_header.free_space_total := by
  refine ⟨rfl, rfl, rfl, rfl, ?_⟩
  decide

/-- C2: the growing `update_tuple` writes the new bytes at
`offset_end_free_space - len(new)` (= 4043) and rewrites the slot entry
to `(4043, 40)`, but it does NOT advance `offset_end_free_space`: the
header still reads 4083 afterwards, exactly as before the update, so the
relocated tuple sits inside the region the header calls free. -/
theorem claim2_update_no_end_advance :
    growRes.1 = .ok 0 ∧
    growRes.2.get_tuple_offset_and_length 0 = .ok (4043, 40) ∧
    growRes.2.get_data 0 = .ok (List.replicate 40 2) ∧
    pageIns13.get_header.offset_end_free_space = 4083 ∧
    growRes.2.get_header.offset_end_free_space = 4083 ∧
    growRes.2.get_header.offset_end_free_space ≠ 4083 - 40 := by
  refine ⟨rfl, rfl, ?_, rfl, rfl, by decide⟩
  decide

/-- C3 counterexample: the second successful insert on a fresh page
returns slot id 2, not 1: `insert_tuple` computes the slot id with a
2-byte stride (`(slot_offset - HEADER_SIZE) / 2`) while slot entries are
4 bytes wide. -/
theorem claim3_counterexample :
    ((Page.new 1).insert_tuple tup13).1 = .ok 0 ∧
    (((Page.new 1).insert_tuple tup13).2.insert_tuple tup13).1 = .ok 2 ∧
    (2 : Nat) ≠ 1 := by
  exact ⟨rfl, rfl, by decide⟩

/-- C3 amended: for every sequence of n successful `insert_tuple` calls
on a fresh page (each tuple short enough for the u16 length arithmetic
the code performs), the returned slot ids are exactly 0, 2, 4, ...,
2(n-1) in call order: twice the zero-based directory index, because the
id stride (2 bytes) is half the 4-byte entry stride. -/
theorem claim3_amended_ids (pid : Nat) (ts : List (List Nat)) (ids : List Nat) (q : Page)
    (hts : ∀ t ∈ ts, t.length + 4 < U16)
    (h : insertAll (Page.new pid) ts = some (ids, q)) :
    ids = (List.range ts.length).map (fun i => 2 * i) := by
  have hstate : InsState (Page.new pid) 0 := by
    unfold InsState
    rw [contents_length_new, get_header_new]
    refine ⟨by norm_num [PAGE_SIZE], by norm_num, by norm_num, by norm_num [PAGE_SIZE]⟩
  have := insertAll_ids ts (Page.new pid) 0 ids q hts hstate h
  rw [this]
  apply List.map_congr_left
  intro i _
  omega

/-- C3 amended, witness: three 13-byte inserts on a fresh page return
ids 0, 2, 4. -/
theorem claim3_amended_witness :
    (∀ t ∈ c3TupleList, t.length + 4 < U16) ∧
    insertAll (Page.new 1) c3TupleList = some ([0, 2, 4], c3Page) ∧
    [0, 2, 4] = (List.range c3TupleList.length).map (fun i => 2 * i) := by
  have h1 : ∀ t ∈ c3TupleList, t.length + 4 < U16 := by decide
  have h2 : insertAll (Page.new 1) c3TupleList = some ([0, 2, 4], c3Page) := by rfl
  exact ⟨h1, h2, claim3_amended_ids 1 c3TupleList [0, 2, 4] c3Page h1 h2⟩

/-- C4 counterexample: a successful shrinking `update_tuple` does not
always increase `free_space_total` by `old - new`. On `wrapRes.2` — the
reachable state of the C9 trace whose header free space has wrapped to
65532 — slot 2 is live with length 1352, and `update_tuple 2 []`
succeeds; the claim demands free space 65532 + 1352, but the 16-bit
field wraps and the code stores 1348. -/
theorem claim4_counterexample :
    wrapRes.2.get_header.free_space_total = 65532 ∧
    wrapRes.2.get_tuple_offset_and_length 2 = .ok (1392, 1352) ∧
    (wrapRes.2.update_tuple 2 []).1 = .ok 2 ∧
    (wrapRes.2.update_tuple 2 []).2.get_header.free_space_total = 1348 ∧
    (1348 : Nat) ≠ 65532 + (1352 - 0) := by
  refine ⟨rfl, rfl, rfl, rfl, by decide⟩

/-- C4 amended: free-space accounting. A successful insert of a tuple of
length L (with L + 4 below 2^16; longer requests cannot complete in the
source) decreases `free_space_total` by exactly L + 4; a successful
growing update by exactly `new - old`; a successful shrinking update
sets it to `(free_space_total + (old - new)) mod 2^16` — an increase by
exactly `old - new` whenever that sum fits in 16 bits, wrapping
otherwise (reachable once the header's free space has itself
wrapped). -/
theorem claim4_amended :
    (∀ (p : Page) (t : List Nat) (id : Nat),
      10 ≤ p.contents.length → t.length + 4 < U16 →
      (p.insert_tuple t).1 = .ok id →
      (p.insert_tuple t).2.get_header.free_space_total
        = p.get_header.free_space_total - (t.length + 4)) ∧
    (∀ (p : Page) (s : Nat) (t : List Nat) (id o l : Nat),
      10 ≤ p.contents.length → p.get_tuple_offset_and_length s = .ok (o, l) →
      l < t.length → t.length < U16 →
      (p.update_tuple s t).1 = .ok id →
      (p.update_tuple s t).2.get_header.free_space_total
        = p.get_header.free_space_total - (t.length - l)) ∧
    (∀ (p : Page) (s : Nat) (t : List Nat) (id o l : Nat),
      10 ≤ p.contents.length → p.get_tuple_offset_and_length s = .ok (o, l) →
      t.length ≤ l →
      (p.update_tuple s t).1 = .ok id →
      (p.update_tuple s t).2.get_header.free_space_total
        = (p.get_header.free_space_total + (l - t.length)) % U16) := by
  refine ⟨?_, ?_, ?_⟩
  · intro p t id hlen ht hok
    obtain ⟨hfit, _, hfst, _, _, _⟩ := insert_tuple_ok_spec p t id hlen ht hok
    have hlt : p.get_header.free_space_total < U16 := rd16_lt_u16 _ _
    rw [hfst, wsub_small _ _ hlt hfit]
  · intro p s t id o l hlen hslot hgrow ht hok
    exact (update_tuple_grow_fst p s t id o l hlen hslot hgrow ht hok).2
  · intro p s t id o l hlen hslot hshrink hok
    exact update_tuple_shrink_fst p s t id o l hlen hslot hshrink hok

/-- C4 amended, witness: on a fresh page, inserting 13 bytes drops
`free_space_total` from 4080 to 4063; growing slot 0 to 40 bytes drops
it by 27 to 4036; shrinking slot 0 to 3 bytes sets it to
`(4063 + 10) mod 2^16` = 4073. -/
theorem claim4_amended_witness :
    ((Page.new 1).insert_tuple tup13).2.get_header.free_space_total
      = (Page.new 1).get_header.free_space_total - (tup13.length + 4) ∧
    (pageIns13.update_tuple 0 (List.replicate 40 2)).2.get_header.free_space_total
      = pageIns13.get_header.free_space_total - ((List.replicate 40 2).length - 13) ∧
    (pageIns13.update_tuple 0 (List.replicate 3 9)).2.get_header.free_space_total
      = (pageIns13.get_header.free_space_total + (13 - (List.replicate 3 9).length)) % U16 ∧
    (Page.new 1).get_header.free_space_total = 4080 ∧
    pageIns13.get_header.free_space_total = 4063 := by
  obtain ⟨h1, h2, h3⟩ := claim4_amended
  have hl13 : 10 ≤ pageIns13.contents.length := by
    have := pageIns13_len
    omega
  refine ⟨?_, ?_, ?_, rfl, rfl⟩
  · exact h1 (Page.new 1) tup13 0 (by rw [contents_length_new]; omega) (by decide) rfl
  · exact h2 pageIns13 0 (List.replicate 40 2) 0 4083 13 hl13 rfl (by decide)
      (by decide) rfl
  · exact h3 pageIns13 0 (List.replicate 3 9) 0 4083 13 hl13 rfl (by decide) rfl

/-- C5 counterexample, two failures of the claim as stated. First,
`update_tuple` can partially mutate the page and then fail: on
`pageTrap` a growing update addressed to slot 2000 (whose entry bytes,
sitting inside the data region, parse as a live slot) first writes the
10 new tuple bytes at offsets 3986..3995 and only then fails with
`NotEnoughSpace` from the slot-directory write, leaving the page
mutated (byte 3986 changed from 0 to 7). Second, the exhaustion
condition itself is evaded by u16 wrap-around: a 65532-byte insert on a
fresh page satisfies `free_space_total < requested_len + 4`
(4080 < 65536), yet the insert is accepted and returns slot id 0
instead of `NotEnoughSpace`, because `tuple.len() as u16 + 4` wraps to
0 (the source then corrupts the page and panics on the byte copy). -/
theorem claim5_counterexample :
    trapRes.1 = .error .NotEnoughSpace ∧
    trapRes.2.contents.getD 3986 0 = 7 ∧
    pageTrap.contents.getD 3986 0 = 0 ∧
    (Page.new 1).get_header.free_space_total
      < (List.replicate 65532 (0 : Nat)).length + 4 ∧
    wrapIns.1 = .ok 0 ∧
    (Except.ok 0 : Except PageError Nat) ≠ .error .NotEnoughSpace := by
  refine ⟨rfl, by decide, by decide, ?_, wrapIns_fst, by decide⟩
  rw [get_header_new, List.length_replicate]
  decide

/-- C5 amended: the operations fail with `NotEnoughSpace` and leave the
page byte-for-byte unchanged exactly per the code's wrapping 16-bit
guards: an insert whenever `free_space_total < (len as u16) + 4`
(computed mod 2^16), and a growing update of a live slot whenever
`(len as u16) > old_len` and `(len as u16) > free_space_total`. For
`requested_len ≤ 65531` the insert guard coincides with the claim's
plain condition `free_space_total < requested_len + 4`; a 65532..65535
byte request wraps the guard and is accepted instead (see the
counterexample). The general no-partial-mutation clause is also false:
the grow path of `update_tuple` writes tuple bytes before validating
the slot write (see the counterexample). -/
theorem claim5_amended :
    (∀ (p : Page) (t : List Nat),
      p.get_header.free_space_total < wadd (t.length % U16) 4 →
      p.insert_tuple t = (.error .NotEnoughSpace, p)) ∧
    (∀ (p : Page) (s : Nat) (t : List Nat) (o l : Nat),
      p.get_tuple_offset_and_length s = .ok (o, l) →
      ¬ (o < p.get_header.offset_begin_free_space) →
      l < t.length % U16 →
      p.get_header.free_space_total < t.length % U16 →
      p.update_tuple s t = (.error .NotEnoughSpace, p)) := by
  constructor
  · intro p t hguard
    simp only [Page.insert_tuple]
    rw [if_pos hguard]
  · intro p s t o l hslot hlive hgrow hlow
    have hgt : t.length % U16 > l := hgrow
    have hspace : t.length % U16 > p.get_header.free_space_total := hlow
    simp only [Page.update_tuple, hslot]
    rw [if_neg hlive, if_pos hgt, if_pos hspace]

/-- C5 amended, witness: a 13-byte insert on the nearly-full `pageFull`
(12 free bytes, guard value 17) fails unchanged; growing slot 0 of
`pageFull` from 1352 to 1400 bytes (1400 > 12 free) fails unchanged. -/
theorem claim5_amended_witness :
    pageFull.get_header.free_space_total < wadd (tup13.length % U16) 4 ∧
    pageFull.insert_tuple tup13 = (.error .NotEnoughSpace, pageFull) ∧
    pageFull.update_tuple 0 (List.replicate 1400 2)
      = (.error .NotEnoughSpace, pageFull) := by
  refine ⟨by decide, ?_, ?_⟩
  · exact claim5_amended.1 pageFull tup13 (by decide)
  · exact claim5_amended.2 pageFull 0 (List.replicate 1400 2) 2744 1352 rfl (by decide)
      (by rw [List.length_replicate]; decide)
      (by rw [List.length_replicate]; decide)

/-- C6 counterexample: on a fresh page the slot offset of slot id 0 (16)
is not strictly below `offset_begin_free_space` (16), so the claim
demands `InvalidSlot`; the code returns `TupleNotFound` instead, because
`get_tuple_offset_and_length` never compares the slot offset with
`offset_begin_free_space`. -/
theorem claim6_counterexample :
    ¬ (16 < (Page.new 1).get_header.offset_begin_free_space) ∧
    (Page.new 1).get_data 0 = .error .TupleNotFound ∧
    (Page.new 1).get_data 0 ≠ .error .InvalidSlot := by
  refine ⟨by decide, rfl, by decide⟩

/-- C6 amended: for every page and every slot id, `get_data` returns
`InvalidSlot` exactly when the code's wrapping u16 slot-offset
computation makes `slot_offset + 4` exceed `PAGE_SIZE`. For slot ids up
to 32757 that condition is exactly `slot_id ≥ 2039`; larger u16 slot
ids whose doubled offset wraps around (such as 32760 or 33000) land
back inside the page and are not flagged as `InvalidSlot` either. A
slot id whose entry lies inside the page but outside the occupied
directory is never rejected as `InvalidSlot`: its stored bytes are read
and yield `TupleNotFound` or even data. -/
theorem claim6_amended (p : Page) (s : Nat) :
    (p.get_data s = .error .InvalidSlot ↔ wadd (slotOffset s) 4 > PAGE_SIZE) ∧
    (s ≤ 32757 → (wadd (slotOffset s) 4 > PAGE_SIZE ↔ 2039 ≤ s)) := by
  constructor
  · by_cases hg : wadd (slotOffset s) 4 > PAGE_SIZE
    · have htup : p.get_tuple_offset_and_length s = .error .InvalidSlot := by
        unfold Page.get_tuple_offset_and_length
        rw [if_pos hg]
      constructor
      · intro _
        exact hg
      · intro _
        unfold Page.get_data
        rw [htup]
    · have htup : p.get_tuple_offset_and_length s
          = .ok (rd16 p.contents (slotOffset s), rd16 p.contents (slotOffset s + 2)) := by
        unfold Page.get_tuple_offset_and_length
        rw [if_neg hg]
      constructor
      · intro h
        exfalso
        unfold Page.get_data at h
        rw [htup] at h
        simp only at h
        split at h
        · simp at h
        · split at h
          · simp at h
          · simp at h
      · intro h
        exact absurd h hg
  · intro hs
    rw [slotOffset_small s (by omega)]
    unfold wadd U16 PAGE_SIZE
    omega

/-- C6 amended, witness: slot 2039 of a fresh page is `InvalidSlot`
(entry would end at byte 4098); slot 5 is not; nor is the wrapped slot
id 32760 (its u16 slot offset wraps to 0), although 32760 ≥ 2039. -/
theorem claim6_amended_witness :
    (Page.new 1).get_data 2039 = .error .InvalidSlot ∧
    ¬ ((Page.new 1).get_data 5 = .error .InvalidSlot) ∧
    ¬ ((Page.new 1).get_data 32760 = .error .InvalidSlot) ∧
    2039 ≤ (32760 : Nat) := by
  refine ⟨?_, ?_, ?_, by omega⟩
  · exact (claim6_amended (Page.new 1) 2039).1.mpr (by decide)
  · intro h
    have := (claim6_amended (Page.new 1) 5).1.mp h
    exact absurd this (by decide)
  · intro h
    have := (claim6_amended (Page.new 1) 32760).1.mp h
    exact absurd this (by decide)

/-- C7 counterexample: deletion is not final under operations addressed
to other slot ids. Slot 2 of `resur2` is live; after `delete_tuple 2`
reads of slot 2 fail with `TupleNotFound`; but a growing update
addressed to slot 1 only — whose 4-byte entry overlaps the entries of
slots 0 and 2 because ids advance in 2-byte steps — rewrites slot 2's
offset field, after which `get_data 2` succeeds again. -/
theorem claim7_counterexample :
    resur2.get_data 2 = .ok (List.replicate 10 4) ∧
    (resur2.delete_tuple 2).1 = .ok () ∧
    resur3.get_data 2 = .error .TupleNotFound ∧
    (resur3.update_tuple 1 (List.replicate 50 5)).1 = .ok 1 ∧
    resur4.get_data 2 = .ok [] := by
  refine ⟨by decide, rfl, rfl, rfl, by decide⟩

/-- C7 amended: immediately after a successful `delete_tuple s` (any
slot whose entry lies in the page before the data region), both
`get_data s` and `update_tuple s` fail with `TupleNotFound` and the
failed update does not change the page; the delete itself writes only
slot `s`'s 4-byte entry and the header bytes 4..9, leaving every other
slot entry and all tuple bytes untouched. Deletion finality against
later operations holds only for operations that do not write into slot
`s`'s entry bytes; an update addressed to an overlapping odd slot id can
resurrect the slot (see the counterexample). -/
theorem claim7_amended (p : Page) (s : Nat) (t : List Nat)
    (hs : s ≤ 2038)
    (hlen : PAGE_SIZE ≤ p.contents.length)
    (hend : 16 + 2 * s + 4 ≤ p.get_header.offset_end_free_space) :
    (p.delete_tuple s).1 = .ok () ∧
    (p.delete_tuple s).2.get_data s = .error .TupleNotFound ∧
    (p.delete_tuple s).2.update_tuple s t = (.error .TupleNotFound, (p.delete_tuple s).2) ∧
    (∀ i, i < 4 ∨ (10 ≤ i ∧ i < 16 + 2 * s) ∨ 16 + 2 * s + 4 ≤ i →
      (p.delete_tuple s).2.contents.getD i 0 = p.contents.getD i 0) := by
  obtain ⟨hok, _, _, hbegin, _, hslot0, hslot2, hframe, _⟩ :=
    delete_tuple_spec p s hs hlen hend
  have hb : 0 < (p.delete_tuple s).2.get_header.offset_begin_free_space := by
    rw [hbegin]
    omega
  exact ⟨hok, get_data_zero_slot _ s hs hslot0 hslot2 hb,
    update_tuple_zero_slot _ s t hs hslot0 hslot2 hb, hframe⟩

/-- C7 amended, witness: deleting live slot 2 of `resur2` makes an
immediate `get_data 2` and `update_tuple 2` fail with `TupleNotFound`,
and byte 3990 (inside slot 2's tuple bytes) is unchanged by the
delete. -/
theorem claim7_amended_witness :
    (resur2.delete_tuple 2).1 = .ok () ∧
    (resur2.delete_tuple 2).2.get_data 2 = .error .TupleNotFound ∧
    (resur2.delete_tuple 2).2.update_tuple 2 tup13
      = (.error .TupleNotFound, (resur2.delete_tuple 2).2) ∧
    (resur2.delete_tuple 2).2.contents.getD 3990 0 = resur2.contents.getD 3990 0 := by
  obtain ⟨h1, h2, h3, h4⟩ := claim7_amended resur2 2 tup13 (by omega) resur2_len (by decide)
  exact ⟨h1, h2, h3, h4 3990 (by omega)⟩

/-- C8: the insert/read round trip fails on a reachable page state. From
a fresh page: insert three 1352-byte tuples, shrink the first to length
0 (the header then reads `free_space_total = 1364` though the physical
gap is 12 bytes), then insert a 36-byte all-zero tuple. The insert
succeeds and returns slot id 6, but its own tuple bytes (written at
offsets 4..39) overwrite the slot entry it just wrote at offsets 28..31,
so the immediate `get_data 6` returns `TupleNotFound` instead of the
inserted bytes. -/
theorem claim8_roundtrip_violated :
    overlapRes.1 = .ok 6 ∧
    overlapRes.2.get_data 6 = .error .TupleNotFound := by
  exact ⟨rfl, rfl⟩

/-- C9 counterexample: `delete_tuple` does not always decrease
`free_space_total` by 4. On `pageFst0` (header free space 0, slot 0's
entry within the page and before `offset_end_free_space` = 40), a
further delete of slot 0 returns `Ok` but wraps the u16 subtraction:
free space becomes 65532. -/
theorem claim9_counterexample :
    pageFst0.get_header.free_space_total = 0 ∧
    16 + 2 * 0 + 4 ≤ pageFst0.get_header.offset_end_free_space ∧
    wrapRes.1 = .ok () ∧
    wrapRes.2.get_header.free_space_total = 65532 ∧
    wrapRes.2.get_header.free_space_total
      ≠ pageFst0.get_header.free_space_total - 4 := by
  refine ⟨rfl, by decide, rfl, rfl, by decide⟩

/-- C9 amended: `delete_tuple` performs no liveness check: for every
slot id whose 4-byte entry lies within the page and does not cross
`offset_end_free_space`, it returns `Ok` (never `TupleNotFound`),
including never-allocated and already-deleted slots; it sets
`free_space_total` to the old value minus 4 mod 2^16 (an exact decrease
by 4 whenever the old value is at least 4), sets
`offset_begin_free_space` to the slot's offset plus 4, and leaves
`offset_end_free_space` unchanged. -/
theorem claim9_amended (p : Page) (s : Nat)
    (hs : s ≤ 2038)
    (hlen : PAGE_SIZE ≤ p.contents.length)
    (hend : 16 + 2 * s + 4 ≤ p.get_header.offset_end_free_space) :
    (p.delete_tuple s).1 = .ok () ∧
    (p.delete_tuple s).2.get_header.free_space_total
      = (p.get_header.free_space_total + 65532) % 65536 ∧
    (4 ≤ p.get_header.free_space_total →
      (p.delete_tuple s).2.get_header.free_space_total
        = p.get_header.free_space_total - 4) ∧
    (p.delete_tuple s).2.get_header.offset_begin_free_space = 16 + 2 * s + 4 ∧
    (p.delete_tuple s).2.get_header.offset_end_free_space
      = p.get_header.offset_end_free_space := by
  obtain ⟨hok, _, hfst, hbegin, hendkeep, _, _, _, _⟩ :=
    delete_tuple_spec p s hs hlen hend
  have hlt : p.get_header.free_space_total < U16 := rd16_lt_u16 _ _
  have hval : wsub p.get_header.free_space_total 4
      = (p.get_header.free_space_total + 65532) % 65536 := by
    unfold wsub U16 at *
    omega
  refine ⟨hok, by rw [hfst, hval], ?_, hbegin, hendkeep⟩
  intro h4
  rw [hfst, wsub_small _ _ hlt h4]

/-- C9 amended, witness: deleting the never-deleted-before slot 0 of
`pageFull` (free space 12) succeeds and drops free space to 8, moves
`offset_begin_free_space` to 20, keeps `offset_end_free_space` at 40. -/
theorem claim9_amended_witness :
    (pageFull.delete_tuple 0).1 = .ok () ∧
    (pageFull.delete_tuple 0).2.get_header.free_space_total
      = pageFull.get_header.free_space_total - 4 ∧
    (pageFull.delete_tuple 0).2.get_header.offset_begin_free_space = 20 ∧
    (pageFull.delete_tuple 0).2.get_header.offset_end_free_space
      = pageFull.get_header.offset_end_free_space := by
  obtain ⟨h1, _, h3, h4, h5⟩ := claim9_amended pageFull 0 (by omega) pageFull_len (by decide)
  exact ⟨h1, h3 (by decide), h4, h5⟩

/-- C10: loading a page id with no registered path fails with
`PageNotFound`; with a registered path, an unreadable file or contents
that are not a valid page (not exactly `PAGE_SIZE` bytes, per the
spec-modelled `set_contents`) fail with the I/O error kind. -/
theorem claim10_load_errors :
    (∀ (bp : BufferPool) (disk : String → Option (List Nat)) (page_id : Nat),
      alistFind page_id bp.page_paths = none →
      bp.read_page_from_disk disk page_id = .error .PageNotFound) ∧
    (∀ (bp : BufferPool) (disk : String → Option (List Nat)) (page_id : Nat)
      (path : String),
      alistFind page_id bp.page_paths = some path → disk path = none →
      bp.read_page_from_disk disk page_id = .error .IoError) ∧
    (∀ (bp : BufferPool) (disk : String → Option (List Nat)) (page_id : Nat)
      (path : String) (bs : List Nat),
      alistFind page_id bp.page_paths = some path → disk path = some bs →
      bs.length ≠ PAGE_SIZE →
      bp.read_page_from_disk disk page_id = .error .IoError) := by
  refine ⟨?_, ?_, ?_⟩
  · intro bp disk page_id h
    unfold BufferPool.read_page_from_disk
    rw [h]
  · intro bp disk page_id path h hd
    simp only [BufferPool.read_page_from_disk, h, hd]
  · intro bp disk page_id path bs h hd hlen
    have hset : (Page.new page_id).set_contents bs = .error () := by
      unfold Page.set_contents
      rw [if_neg hlen]
    simp only [BufferPool.read_page_from_disk, h, hd, hset]

/-- C10 witness: an empty pool yields `PageNotFound` for page 7; with a
registered path, an unreadable file and a 3-byte file both yield the
I/O error kind. -/
theorem claim10_witness :
    BufferPool.new.read_page_from_disk (fun _ => none) 7 = .error .PageNotFound ∧
    (BufferPool.new.add_page_path 7 "page7.bin").read_page_from_disk
      (fun _ => none) 7 = .error .IoError ∧
    (BufferPool.new.add_page_path 7 "page7.bin").read_page_from_disk
      (fun _ => some [1, 2, 3]) 7 = .error .IoError := by
  obtain ⟨h1, h2, h3⟩ := claim10_load_errors
  refine ⟨h1 BufferPool.new (fun _ => none) 7 rfl, ?_, ?_⟩
  · exact h2 (BufferPool.new.add_page_path 7 "page7.bin") (fun _ => none) 7
      "page7.bin" rfl rfl
  · exact h3 (BufferPool.new.add_page_path 7 "page7.bin") (fun _ => some [1, 2, 3]) 7
      "page7.bin" [1, 2, 3] rfl rfl (by decide)

end Gondor
